import Mathlib

set_option autoImplicit false

/-! Verification of the turn-adjudication engine of the anagrams
repository (a Xanado-derived tile-word game). The tile containers are
translated from src/unnamed/part_001 (class Word, the rack-style
container) and src/src/game/Pot.js (class Pot, the exchange-style
container); the command handlers are translated from
src/unnamed/part_000 (the Commands mixin). Collaborator operations that
live in files outside the sources (Game.js helpers such as rackToBoard,
finishTurn, startTurn, getPlayer) are modelled from the specification
and marked as such in their doc comments. -/

/-- Tile as in the sources: a letter, a point value and a blank flag. -/
structure Tile where
  letter : String
  score : Int
  isBlank : Bool
  deriving Repr, DecidableEq

/-- Failure modes of the command handlers: assertion failures (fatal
precondition or consistency violations), the ReferenceError raised by
reading an unbound JavaScript identifier, the TypeError raised by
calling a missing method, and the tile-not-found error thrown by
removeTile. -/
inductive Err where
  | assertFail (msg : String)
  | referenceError (name : String)
  | typeError (msg : String)
  | notFound (letter : String)
  deriving Repr, DecidableEq

/-- One-row tile container: a fixed sequence of slots, each holding at
most one tile (a one-row Surface in the sources). -/
abbrev Slots := List (Option Tile)

/-- Translation of Word.findSquare (src/unnamed/part_001 lines
107-115): scan the tiled squares in order; a blank is taken when no
candidate square has been found yet, and an exact letter match always
overwrites the current candidate. A square is represented here by its
slot index paired with the tile it carries. -/
def Word.findSquareAux (letter : String) : Slots → Nat → Option (Nat × Tile) → Option (Nat × Tile)
  | [], _, acc => acc
  | none :: rest, i, acc => Word.findSquareAux letter rest (i + 1) acc
  | some t :: rest, i, acc =>
      Word.findSquareAux letter rest (i + 1)
        (if (acc.isNone && t.isBlank) || (t.letter == letter) then some (i, t) else acc)

/-- Word.findSquare: start the scan with no candidate square. -/
def Word.findSquare (letter : String) (slots : Slots) : Option (Nat × Tile) :=
  Word.findSquareAux letter slots 0 none

/-- Translation of Word.removeTile (src/unnamed/part_001 lines
123-131): find a square for the requested letter, throw if none,
unplace the tile, and re-letter it when it is a blank. -/
def Word.removeTile (letter : String) (slots : Slots) : Except Err (Tile × Slots) :=
  match Word.findSquare letter slots with
  | none => .error (.notFound letter)
  | some (i, t) =>
      let tile := if t.isBlank then { t with letter := letter } else t
      .ok (tile, slots.set i none)

/-- Translation of Word.addTile (src/unnamed/part_001 lines 71-79):
place the tile on the first empty square; leave the container unchanged
when it is full (the source returns undefined in that case). -/
def Word.addTile (tile : Tile) : Slots → Slots
  | [] => []
  | none :: rest => some tile :: rest
  | some t :: rest => some t :: Word.addTile tile rest

/-- Translation of Pot.findSquare (src/src/game/Pot.js lines 96-103):
only an exact letter match is accepted; blanks get no special
treatment. -/
def Pot.findSquareAux (letter : String) : Slots → Nat → Option (Nat × Tile) → Option (Nat × Tile)
  | [], _, acc => acc
  | none :: rest, i, acc => Pot.findSquareAux letter rest (i + 1) acc
  | some t :: rest, i, acc =>
      Pot.findSquareAux letter rest (i + 1)
        (if t.letter == letter then some (i, t) else acc)

/-- Pot.findSquare: start the scan with no candidate square. -/
def Pot.findSquare (letter : String) (slots : Slots) : Option (Nat × Tile) :=
  Pot.findSquareAux letter slots 0 none

/-- Translation of Pot.removeTile (src/src/game/Pot.js lines 111-118):
find a square holding the requested letter, throw if none, unplace the
tile; no blank re-lettering is performed. -/
def Pot.removeTile (letter : String) (slots : Slots) : Except Err (Tile × Slots) :=
  match Pot.findSquare letter slots with
  | none => .error (.notFound letter)
  | some (i, t) => .ok (t, slots.set i none)

/-- Container holds some tile whose letter field equals the requested
letter. -/
def hasLetter (letter : String) : Slots → Bool
  | [] => false
  | none :: rest => hasLetter letter rest
  | some t :: rest => (t.letter == letter) || hasLetter letter rest

/-- Container holds some blank tile. -/
def hasBlank : Slots → Bool
  | [] => false
  | none :: rest => hasBlank rest
  | some t :: rest => t.isBlank || hasBlank rest

/-- Turn-record kinds appearing in the Commands mixin. -/
inductive TurnType where
  | PLAYED | CHALLENGE_LOST | TOOK_BACK | CHALLENGE_WON | GAME_ENDED
  deriving Repr, DecidableEq

/-- Game lifecycle states used by the Commands mixin. -/
inductive GState where
  | WAITING | PLAYING | PAUSED | GAME_OVER | TWO_PASSES | FAILED_CHALLENGE
  deriving Repr, DecidableEq

/-- Challenge penalty schemes. -/
inductive Penalty where
  | NONE | MISS | PER_TURN | PER_WORD
  deriving Repr, DecidableEq

/-- Word-check policies for plays. -/
inductive WordCheck where
  | NONE | AFTER | REJECT
  deriving Repr, DecidableEq

/-- Timer configurations; GAME is the per-game countdown clock. -/
inductive TimerType where
  | NONE | TURN | GAME
  deriving Repr, DecidableEq

/-- Notification kinds emitted by the modelled handlers. -/
inductive NotifyType where
  | REJECT | PAUSE | UNPAUSE | NEXT_GAME | MESSAGE
  deriving Repr, DecidableEq

/-- Notification: target none means broadcast, some key means that one
player; payload fields as carried by the source notifications. -/
structure Notif where
  target : Option String
  ntype : NotifyType
  playerKey : Option String := none
  words : List String := []
  deriving Repr, DecidableEq

/-- Board placement: a tile (letter, score, blank flag) with the board
coordinates it is played at. -/
structure Placement where
  letter : String
  score : Int
  isBlank : Bool
  row : Nat
  col : Nat
  deriving Repr, DecidableEq

/-- Per-player delta recorded in the GAME_ENDED turn by
confirmGameOver. -/
structure EndScore where
  key : String
  tiles : Int := 0
  tilesRemaining : Option String := none
  time : Option Int := none
  deriving Repr, DecidableEq

/-- Turn-ledger record; optional fields default to absent, matching the
source's plain objects. -/
structure Turn where
  type : TurnType
  playerKey : String := ""
  score : Int := 0
  endScores : List EndScore := []
  placements : Option (List Placement) := none
  replacements : Option (List Tile) := none
  words : List String := []
  nextToGoKey : Option String := none
  challengerKey : Option String := none
  penalty : Option Penalty := none
  endState : Option GState := none
  remainingTime : Int := 0
  deriving Repr, DecidableEq

/-- Player: identity key, display name, score, rack container, clock
(negative means overrun) and the miss-next-turn flag. -/
structure Player where
  key : String
  name : String := ""
  score : Int := 0
  rack : Slots := []
  clock : Int := 0
  missNextTurn : Bool := false
  deriving Repr, DecidableEq

/-- Move passed to play: the words formed, the move score and the tile
placements. -/
structure Move where
  words : List String
  score : Int
  placements : Option (List Placement)
  deriving Repr, DecidableEq

/-- Game aggregate as read and mutated by the Commands mixin. The
dictionary is the configured word list; none means no dictionary is
configured, which is also the case in which the dictionary promise
fails. isRobot mirrors the source's this.isRobot flag consulted by
play. -/
structure GameState where
  key : String := ""
  state : GState := GState.PLAYING
  players : List Player := []
  whosTurnKey : String := ""
  board : List ((Nat × Nat) × Tile) := []
  bag : List Tile := []
  turns : List Turn := []
  pausedBy : Option String := none
  dictionary : Option (List String) := none
  isRobot : Bool := false
  wordCheck : WordCheck := WordCheck.NONE
  challengePenalty : Penalty := Penalty.NONE
  penaltyPoints : Int := 0
  timerType : TimerType := TimerType.NONE
  timePenalty : Int := 0
  nextGameKey : Option String := none
  deriving Repr, DecidableEq

/-- Result of a command handler: the (possibly partially) mutated game,
the notifications emitted before returning, and the error the returned
promise rejects with, if any. -/
structure Outcome where
  game : GameState
  notifs : List Notif := []
  err : Option Err := none
  deriving Repr, DecidableEq

/-- Modelled from the spec: getPlayerWithKey looks the key up in the
roster (Game.js is not among the sources). -/
def findP (l : List Player) (k : String) : Option Player :=
  l.find? (fun p => p.key == k)

/-- Roster update: apply f to every roster entry carrying the key (the
source mutates the player object in place). -/
def updP (k : String) (f : Player → Player) (l : List Player) : List Player :=
  l.map (fun p => if p.key == k then f p else p)

/-- Game-level roster update. -/
def updatePlayer (k : String) (f : Player → Player) (g : GameState) : GameState :=
  { g with players := updP k f g.players }

/-- Modelled from the spec: getPlayer returns the player holding the
whose-turn pointer (Game.js is not among the sources). -/
def getPlayer (g : GameState) : Option Player :=
  findP g.players g.whosTurnKey

/-- Modelled from the spec: nextPlayer is the cyclic roster successor
of the player holding the turn pointer (Game.js is not among the
sources). -/
def nextPlayer (g : GameState) : Option Player :=
  match g.players.findIdx? (fun p => p.key == g.whosTurnKey) with
  | none => none
  | some i => g.players.get? ((i + 1) % g.players.length)

/-- Most recent ledger record. -/
def lastTurn (g : GameState) : Option Turn :=
  g.turns.getLast?

/-- Modelled from the spec: finishTurn appends a turn record for the
given player to the append-only ledger (Game.js is not among the
sources); notification and persistence effects are outside the
modelled state. -/
def finishTurn (g : GameState) (pkey : String) (turn : Turn) : GameState :=
  { g with turns := g.turns ++ [{ turn with playerKey := pkey }] }

/-- Modelled from the spec: startTurn hands the turn to the given
player (Game.js is not among the sources); only the whose-turn pointer
is modelled. -/
def startTurn (g : GameState) (pkey : String) : GameState :=
  { g with whosTurnKey := pkey }

/-- Rack emptiness, as Rack.isEmpty in the sources' container classes. -/
def rackIsEmpty (slots : Slots) : Bool :=
  slots.all (fun s => s.isNone)

/-- Tiles currently held by a container. -/
def tilesOf (slots : Slots) : List Tile :=
  slots.filterMap id

/-- Total point value of the tiles held (rack.score() in the source). -/
def rackScoreOf (slots : Slots) : Int :=
  (tilesOf slots).foldl (fun a t => a + t.score) 0

/-- Letters of the tiles held (rack.lettersLeft() in the source). -/
def lettersLeft (slots : Slots) : List String :=
  (tilesOf slots).map (fun t => t.letter)

/-- Number of players whose rack is empty. -/
def emptyCnt (l : List Player) : Nat :=
  (l.filter (fun p => rackIsEmpty p.rack)).length

/-- Roster keys are pairwise distinct. -/
abbrev keysNodup (g : GameState) : Prop :=
  (g.players.map (fun p => p.key)).Nodup

/-- JavaScript Math.round of the exact rational num / den, with den
positive: the floor of the value plus one half. -/
def jsRound (num den : Int) : Int :=
  Int.fdiv (2 * num + den) (2 * den)

/-- Modelled from the spec: rackToBoard moves each named tile from the
player's rack (via Word.removeTile, so blanks can serve as wildcards)
onto the board at the placement's coordinates (Game.js is not among the
sources). A failure aborts the walk and leaves the earlier moves
applied, as in the source. -/
def rackToBoard (pls : List Placement) (pkey : String) (g : GameState) : GameState × Option Err :=
  match pls with
  | [] => (g, none)
  | pl :: rest =>
    match findP g.players pkey with
    | none => (g, some (.assertFail "No such player"))
    | some p =>
      match Word.removeTile pl.letter p.rack with
      | .error e => (g, some e)
      | .ok (t, rack') =>
        let g1 := updatePlayer pkey (fun q => { q with rack := rack' }) g
        let g2 := { g1 with board := g1.board ++ [((pl.row, pl.col), t)] }
        rackToBoard rest pkey g2

/-- Modelled from the spec: rackToBag removes each replacement tile
from the player's rack and returns it to the letter bag, resetting a
blank's letter on the way back (Game.js and the bag class are not among
the sources). -/
def rackToBag (tiles : List Tile) (pkey : String) (g : GameState) : GameState × Option Err :=
  match tiles with
  | [] => (g, none)
  | tl :: rest =>
    match findP g.players pkey with
    | none => (g, some (.assertFail "No such player"))
    | some p =>
      match Word.removeTile tl.letter p.rack with
      | .error e => (g, some e)
      | .ok (t, rack') =>
        let t' := if t.isBlank then { t with letter := " " } else t
        let g1 := updatePlayer pkey (fun q => { q with rack := rack' }) g
        let g2 := { g1 with bag := g1.bag ++ [t'] }
        rackToBag rest pkey g2

/-- Remove the tile at the given coordinates from the board. -/
def boardRemove (pos : Nat × Nat) :
    List ((Nat × Nat) × Tile) → Option (Tile × List ((Nat × Nat) × Tile))
  | [] => none
  | (q, t) :: rest =>
    if q = pos then some (t, rest)
    else
      match boardRemove pos rest with
      | none => none
      | some (t', b') => some (t', (q, t) :: b')

/-- Modelled from the spec: boardToRack unplaces each placed tile from
the board and puts it back on the player's rack (Game.js is not among
the sources). -/
def boardToRack (pls : List Placement) (pkey : String) (g : GameState) : GameState × Option Err :=
  match pls with
  | [] => (g, none)
  | pl :: rest =>
    match boardRemove (pl.row, pl.col) g.board with
    | none => (g, some (.notFound pl.letter))
    | some (t, board') =>
      let g1 := { g with board := board' }
      let g2 := updatePlayer pkey (fun q => { q with rack := Word.addTile t q.rack }) g1
      boardToRack rest pkey g2

/-- Success path of play (src/unnamed/part_000 lines 67-83): the named
tiles move from the rack to the board and the move score is added, but
the PLAYED turn object reads the unbound identifier prepasses, so the
source raises a ReferenceError before finishTurn can append the record
or the next turn can start. -/
def playBody (g : GameState) (pkey : String) (move : Move) : Outcome :=
  match move.placements with
  | none => { game := g, err := some (.assertFail "No placements") }
  | some pls =>
    match rackToBoard pls pkey g with
    | (g1, some e) => { game := g1, err := some e }
    | (g1, none) =>
      let g2 := updatePlayer pkey (fun q => { q with score := q.score + move.score }) g1
      { game := g2, err := some (.referenceError "prepasses") }

/-- Translation of play (src/unnamed/part_000 lines 25-83): with a
dictionary configured, a non-robot game and the REJECT word-check
policy, every word of the move is looked up first; if any is unknown
the acting player alone is sent a REJECT carrying the offending words
and the handler returns with the state untouched. Otherwise the success
path runs. -/
def play (g : GameState) (pkey : String) (move : Move) : Outcome :=
  match g.dictionary with
  | some dict =>
    if g.isRobot = false ∧ g.wordCheck = WordCheck.REJECT then
      let badWords := move.words.filter (fun w => !(dict.contains w))
      if 0 < badWords.length then
        { game := g,
          notifs := [{ target := some pkey, ntype := NotifyType.REJECT,
                       playerKey := some pkey, words := badWords }],
          err := none }
      else playBody g pkey move
    else playBody g pkey move
  | none => playBody g pkey move

/-- Translation of takeBack (src/unnamed/part_000 lines 252-294):
reverse the last PLAYED turn — replacement tiles go back to the bag,
placed tiles back to the acting player's rack, the recorded score is
subtracted — then an inverse record (TOOK_BACK or CHALLENGE_WON) is
appended; for TOOK_BACK the taking-back player resumes the turn. -/
def takeBack (g : GameState) (pkey : String) (ttype : TurnType) : Outcome :=
  match lastTurn g with
  | none => { game := g, err := some (.assertFail "No previous move to take back") }
  | some previousMove =>
    if previousMove.type ≠ TurnType.PLAYED then
      { game := g, err := some (.assertFail "Cannot take back a turn that was not a play") }
    else
      match findP g.players previousMove.playerKey with
      | none => { game := g, err := some (.assertFail "No such player") }
      | some _ =>
        let pk := previousMove.playerKey
        match rackToBag (previousMove.replacements.getD []) pk g with
        | (g1, some e) => { game := g1, err := some e }
        | (g1, none) =>
          match (match previousMove.placements with
                 | some pls => boardToRack pls pk g1
                 | none => (g1, none)) with
          | (g2, some e) => { game := g2, err := some e }
          | (g2, none) =>
            let g3 :=
              updatePlayer pk (fun q => { q with score := q.score - previousMove.score }) g2
            let turn : Turn :=
              { type := ttype,
                nextToGoKey :=
                  some (if ttype = TurnType.CHALLENGE_WON then g3.whosTurnKey else pkey),
                score := -previousMove.score,
                placements := previousMove.placements,
                replacements := previousMove.replacements,
                challengerKey := if ttype = TurnType.CHALLENGE_WON then some pkey else none }
            let g4 := finishTurn g3 pk turn
            let g5 := if ttype = TurnType.TOOK_BACK then startTurn g4 pkey else g4
            { game := g5 }

/-- Concrete tile used by the evaluation games. -/
def tileA : Tile :=
  { letter := "A", score := 1, isBlank := false }

/-- Concrete player holding the tile A. -/
def cPlayer1 : Player :=
  { key := "p1", name := "P one", rack := [some tileA, none] }

/-- Concrete second player. -/
def cPlayer2 : Player :=
  { key := "p2", name := "P two", rack := [some { letter := "B", score := 3, isBlank := false }] }

/-- Concrete game with no dictionary configured, so play skips word
validation. -/
def cGame4 : GameState :=
  { key := "g4", players := [cPlayer1, cPlayer2], whosTurnKey := "p1" }

/-- Concrete valid move: place the A at row 7, column 7 for 7 points. -/
def cMove4 : Move :=
  { words := ["AB"], score := 7,
    placements := some [{ letter := "A", score := 1, isBlank := false, row := 7, col := 7 }] }

/-- Concrete game with a dictionary and the REJECT policy. -/
def cGameR : GameState :=
  { cGame4 with key := "gR", dictionary := some ["CAT"], wordCheck := WordCheck.REJECT }

/-- Concrete move forming a word that is not in the dictionary. -/
def cMoveR : Move :=
  { words := ["ZZQX"], score := 9, placements := some [] }

/-- State threaded through confirmGameOver's per-player loop. -/
structure LoopSt where
  game : GameState
  pwnt : Option String
  pot : Int
  deltas : List EndScore
  err : Option Err
  deriving Repr, DecidableEq

/-- Time-penalty part of confirmGameOver's loop (src/unnamed/part_000
lines 204-217): under a per-game clock, a player with negative
remaining time gets points = Math.round(clock * timePenalty / 60)
recorded in their delta, but only when the value is negative. -/
def timeDelta (tt : TimerType) (tp : Int) (p : Player) (d : EndScore) : EndScore :=
  if tt = TimerType.GAME ∧ p.clock < 0 then
    let points := jsRound (p.clock * tp) 60
    if points < 0 then { d with time := some points } else d
  else d

/-- Per-player loop of confirmGameOver (src/unnamed/part_000 lines
179-219): a second empty rack trips the assertion; a non-empty rack has
its score subtracted from the player and accumulated into the pot. -/
def cgoLoop (tt : TimerType) (tp : Int) :
    List Player → GameState → Option String → Int → List EndScore → LoopSt
  | [], g, pwnt, pot, ds => ⟨g, pwnt, pot, ds, none⟩
  | p :: rest, g, pwnt, pot, ds =>
    if rackIsEmpty p.rack then
      match pwnt with
      | some _ =>
        ⟨g, pwnt, pot, ds,
         some (.assertFail "Found more than one player with no tiles when finishing game")⟩
      | none =>
        let d := timeDelta tt tp p { key := p.key }
        cgoLoop tt tp rest g (some p.key) pot (ds ++ [d])
    else
      let rackScore := rackScoreOf p.rack
      let g1 := updatePlayer p.key (fun q => { q with score := q.score - rackScore }) g
      let d := timeDelta tt tp p
        { key := p.key, tiles := -rackScore,
          tilesRemaining := some (String.intercalate "," (lettersLeft p.rack)) }
      cgoLoop tt tp rest g1 pwnt (pot + rackScore) (ds ++ [d])

/-- Translation of confirmGameOver (src/unnamed/part_000 lines
159-237): a no-op unless the game is PLAYING; otherwise set the
terminal state, settle every rack (racks forfeit their value into a
pot, at most one rack may be empty, its owner receives the pot) and
append one consolidated GAME_ENDED record with per-player deltas. The
clock stop and broadcast effects are outside the modelled state. -/
def confirmGameOver (g : GameState) (pkey : String) (endState : Option GState) : Outcome :=
  if g.state ≠ GState.PLAYING then { game := g }
  else
    let g0 := { g with state := endState.getD GState.GAME_OVER }
    let ls := cgoLoop g.timerType g.timePenalty g0.players g0 none 0 []
    match ls.err with
    | some e => { game := ls.game, err := some e }
    | none =>
      match ls.pwnt with
      | some k =>
        let g1 := updatePlayer k (fun q => { q with score := q.score + ls.pot }) ls.game
        let ds := ls.deltas.map (fun d => if d.key == k then { d with tiles := ls.pot } else d)
        { game := finishTurn g1 pkey
            { type := TurnType.GAME_ENDED, endState := endState, endScores := ds } }
      | none =>
        { game := finishTurn ls.game pkey
            { type := TurnType.GAME_ENDED, endState := endState, endScores := ls.deltas } }

/-- Value resolved into challenge's chained then callback: the
dictionary collaborator when the dictionary promise resolves, or — the
promise having rejected and the catch having taken the play back — the
take-back's resolved game, which carries no hasWord method. -/
inductive DictVal where
  | dict (words : List String)
  | game
  deriving Repr, DecidableEq

/-- hasWord on the resolved value: a dictionary answers membership;
calling hasWord on a game raises a TypeError. -/
def hasWordD : DictVal → String → Except Err Bool
  | DictVal.dict ws, w => .ok (ws.contains w)
  | DictVal.game, _ => .error (.typeError "dict.hasWord is not a function")

/-- The filter previousMove.words.filter((word) => !dict.hasWord(word.word))
of the source: collect the words failing lookup, propagating the error
thrown by the callback on its first call when dict has no hasWord — so
an empty word list throws nothing. -/
def badWords : List String → DictVal → Except Err (List String)
  | [], _ => .ok []
  | w :: rest, dv =>
    match hasWordD dv w with
    | .error e => .error e
    | .ok b =>
      match badWords rest dv with
      | .error e => .error e
      | .ok bs => .ok (if b then bs else w :: bs)

/-- Body of challenge's then callback (src/unnamed/part_000 lines
333-416), run on the game state g with the resolved value dv: a
succeeding challenge delegates to takeBack, a failing one applies the
configured penalty scheme. -/
def challengeThen (g : GameState) (chKey chdKey : String) (previousMove : Turn)
    (dv : DictVal) : Outcome :=
  match badWords previousMove.words dv with
  | .error e => { game := g, err := some e }
  | .ok bad =>
    if 0 < bad.length then takeBack g chKey TurnType.CHALLENGE_WON
    else
      match getPlayer g, nextPlayer g, findP g.players chdKey with
      | some curr, some np, some challenged =>
        if chKey = curr.key ∧ g.challengePenalty = Penalty.MISS then
          if (previousMove.replacements.getD []).isEmpty && rackIsEmpty challenged.rack then
            confirmGameOver g curr.key (some GState.FAILED_CHALLENGE)
          else
            let turn : Turn :=
              { type := TurnType.CHALLENGE_LOST, penalty := some Penalty.MISS,
                challengerKey := some chKey, nextToGoKey := some np.key }
            { game := startTurn (finishTurn g chdKey turn) np.key }
        else
          let lostPoints : Int :=
            match g.challengePenalty with
            | Penalty.PER_TURN => -g.penaltyPoints
            | Penalty.PER_WORD => -g.penaltyPoints * (previousMove.words.length : Int)
            | _ => 0
          let g1 :=
            if g.challengePenalty = Penalty.MISS then
              updatePlayer chKey (fun q => { q with missNextTurn := true }) g
            else g
          let g2 := updatePlayer chKey (fun q => { q with score := q.score + lostPoints }) g1
          let turn : Turn :=
            { type := TurnType.CHALLENGE_LOST, score := lostPoints,
              challengerKey := some chKey, nextToGoKey := some curr.key }
          { game := finishTurn g2 chdKey turn }
      | _, _, _ => { game := g, err := some (.assertFail "No current player") }

/-- Translation of challenge (src/unnamed/part_000 lines 306-418). The
players are identified by their keys; the challenged player's roster
entry is looked up where the source reads the passed player object. A
missing dictionary models the rejected dictionary promise: the catch
branch takes the play back, and — the chain being
catch-then — the take-back's resolved game then flows into the then
callback in place of the dictionary; a rejection of the take-back
itself propagates out of the chain. -/
def challenge (g : GameState) (chKey chdKey : String) : Outcome :=
  if chKey = chdKey then
    { game := g, err := some (.assertFail "Cannot challenge your own play") }
  else
    match lastTurn g with
    | none => { game := g, err := some (.assertFail "No previous move to challenge") }
    | some previousMove =>
      if previousMove.type ≠ TurnType.PLAYED then
        { game := g, err := some (.assertFail "Cannot challenge a turn that was not a play") }
      else if chdKey ≠ previousMove.playerKey then
        { game := g, err := some (.assertFail "Last player challenge mismatch") }
      else
        match g.dictionary with
        | none =>
          let tb := takeBack g chKey TurnType.CHALLENGE_WON
          match tb.err with
          | some _ => tb
          | none =>
            let o := challengeThen tb.game chKey chdKey previousMove DictVal.game
            { game := o.game, notifs := tb.notifs ++ o.notifs, err := o.err }
        | some dict => challengeThen g chKey chdKey previousMove (DictVal.dict dict)

/-- Handlers a command can be routed to. -/
inductive Handler where
  | confirmGameOver | pause | unpause | play | takeBack | undo | redo
  | challenge | anotherGame | allow | flip
  deriving Repr, DecidableEq

/-- Modelled from the spec: the Game.Command identifier constants live
in Game.js, which is not among the sources; each is represented here by
its identifier name. -/
def Command.CONFIRM_GAME_OVER : String := "CONFIRM_GAME_OVER"

/-- Command identifier PAUSE. -/
def Command.PAUSE : String := "PAUSE"

/-- Command identifier UNPAUSE. -/
def Command.UNPAUSE : String := "UNPAUSE"

/-- Command identifier PLAY. -/
def Command.PLAY : String := "PLAY"

/-- Command identifier TAKE_BACK. -/
def Command.TAKE_BACK : String := "TAKE_BACK"

/-- Command identifier UNDO. -/
def Command.UNDO : String := "UNDO"

/-- Command identifier REDO. -/
def Command.REDO : String := "REDO"

/-- Translation of dispatchCommand's routing switch (src/unnamed/
part_000 lines 511-552): the seven recognized identifiers map to their
handlers; anything else falls to assert.fail before any handler runs,
so no state is touched. -/
def dispatchCommand (command : String) : Except Err Handler :=
  if command = Command.CONFIRM_GAME_OVER then .ok Handler.confirmGameOver
  else if command = Command.PAUSE then .ok Handler.pause
  else if command = Command.UNPAUSE then .ok Handler.unpause
  else if command = Command.PLAY then .ok Handler.play
  else if command = Command.TAKE_BACK then .ok Handler.takeBack
  else if command = Command.UNDO then .ok Handler.undo
  else if command = Command.REDO then .ok Handler.redo
  else .error (.assertFail ("unrecognized command: " ++ command))

/-- Settlement step on one player: non-empty racks forfeit their value. -/
def settleStep (g : GameState) (p : Player) : GameState :=
  if rackIsEmpty p.rack then g
  else updatePlayer p.key (fun q => { q with score := q.score - rackScoreOf p.rack }) g

/-- Settlement of a roster prefix, left to right. -/
def settleG (ps : List Player) (g : GameState) : GameState :=
  ps.foldl settleStep g

/-- Pot accumulated by the settlement loop over a roster prefix. -/
def potAcc (ps : List Player) (pot : Int) : Int :=
  ps.foldl (fun a p => if rackIsEmpty p.rack then a else a + rackScoreOf p.rack) pot

/-- Total forfeited pot of a game: the rack values of all players whose
rack is non-empty. -/
def forfeitPot (g : GameState) : Int :=
  potAcc g.players 0

/-- Delta recorded for one player by the settlement loop (before the
pot is granted to the empty-rack player). -/
def deltaOf (tt : TimerType) (tp : Int) (p : Player) : EndScore :=
  if rackIsEmpty p.rack then timeDelta tt tp p { key := p.key }
  else
    timeDelta tt tp p
      { key := p.key, tiles := -(rackScoreOf p.rack),
        tilesRemaining := some (String.intercalate "," (lettersLeft p.rack)) }

/-- Lookup of a player's delta in a GAME_ENDED record. -/
def findD (l : List EndScore) (k : String) : Option EndScore :=
  l.find? (fun d => d.key == k)

/-- Concrete game whose last turn is a PLAYED record, with no
dictionary configured. -/
def cGame5 : GameState :=
  { key := "g5", players := [cPlayer1, cPlayer2], whosTurnKey := "p1",
    turns := [{ type := TurnType.PLAYED, playerKey := "p2", score := 4, words := ["ZZQX"] }] }

/-- Concrete game like cGame5 but with a dictionary configured that
lacks the played word. -/
def cGame5d : GameState :=
  { cGame5 with key := "g5d", dictionary := some ["CAT"] }

/-- Concrete game for a failed challenge under the PER_WORD scheme at
rate 5 against a two-word play. -/
def cGame6 : GameState :=
  { key := "g6", players := [cPlayer1, cPlayer2], whosTurnKey := "p1",
    dictionary := some ["CAT", "AT"],
    challengePenalty := Penalty.PER_WORD, penaltyPoints := 5,
    turns := [{ type := TurnType.PLAYED, playerKey := "p2", score := 6,
                words := ["CAT", "AT"] }] }

/-- Concrete player with an empty rack. -/
def cPlayer2e : Player :=
  { key := "p2", name := "P two", rack := [none] }

/-- Concrete game for the failed-challenge endgame special case: MISS
penalty, the challenger holds the turn, the challenged player's rack is
empty and the play drew no replacements. -/
def cGame7 : GameState :=
  { key := "g7", players := [cPlayer1, cPlayer2e], whosTurnKey := "p1",
    dictionary := some ["CAT"], challengePenalty := Penalty.MISS,
    turns := [{ type := TurnType.PLAYED, playerKey := "p2", score := 6, words := ["CAT"] }] }

/-- Concrete game for settlement: one non-empty rack worth one point
and one empty rack. -/
def cGame3 : GameState :=
  { key := "g3", players := [cPlayer1, cPlayer2e], whosTurnKey := "p1" }

/-- Concrete player with an overrun per-game clock. -/
def cPlayer1c : Player :=
  { key := "p1", name := "P one", rack := [some tileA, none], clock := -120 }

/-- Concrete game for the time-penalty rule: per-game timer, penalty
rate 60 points per minute, playing player 120 seconds over. -/
def cGame8 : GameState :=
  { key := "g8", players := [cPlayer1c, cPlayer2], whosTurnKey := "p1",
    timerType := TimerType.GAME, timePenalty := 60 }

theorem wordAux_stable (letter : String) :
    ∀ (slots : Slots) (i : Nat) (x : Nat × Tile), hasLetter letter slots = false →
      Word.findSquareAux letter slots i (some x) = some x := by
  intro slots
  induction slots with
  | nil => intro i x _; rfl
  | cons s rest ih =>
    intro i x h
    cases s with
    | none =>
      simp only [hasLetter] at h
      simp only [Word.findSquareAux]
      exact ih _ _ h
    | some t =>
      simp only [hasLetter, Bool.or_eq_false_iff] at h
      simp only [Word.findSquareAux, h.1, Option.isNone_some, Bool.false_and, Bool.or_self,
        Bool.false_or, if_false]
      exact ih _ _ h.2

theorem wordAux_exact (letter : String) :
    ∀ (slots : Slots) (i : Nat) (acc : Option (Nat × Tile)), hasLetter letter slots = true →
      ∃ j t, Word.findSquareAux letter slots i acc = some (j, t) ∧ t.letter = letter := by
  intro slots
  induction slots with
  | nil => intro i acc h; simp [hasLetter] at h
  | cons s rest ih =>
    intro i acc h
    cases s with
    | none =>
      simp only [hasLetter] at h
      simp only [Word.findSquareAux]
      exact ih _ _ h
    | some t =>
      by_cases hrest : hasLetter letter rest = true
      · simp only [Word.findSquareAux]
        exact ih _ _ hrest
      · have hrf : hasLetter letter rest = false := Bool.eq_false_iff.mpr hrest
        have hb : (t.letter == letter) = true := by
          simp only [hasLetter, hrf, Bool.or_false] at h
          exact h
        have hcond : ((acc.isNone && t.isBlank) || (t.letter == letter)) = true := by
          simp [hb]
        simp only [Word.findSquareAux, hcond, if_true]
        refine ⟨i, t, ?_, eq_of_beq hb⟩
        exact wordAux_stable letter rest _ _ hrf

theorem wordAux_blank (letter : String) :
    ∀ (slots : Slots) (i : Nat), hasLetter letter slots = false → hasBlank slots = true →
      ∃ j t, Word.findSquareAux letter slots i none = some (j, t) ∧ t.isBlank = true := by
  intro slots
  induction slots with
  | nil => intro i _ hb; simp [hasBlank] at hb
  | cons s rest ih =>
    intro i h hb
    cases s with
    | none =>
      simp only [hasLetter] at h
      simp only [hasBlank] at hb
      simp only [Word.findSquareAux]
      exact ih _ h hb
    | some t =>
      simp only [hasLetter, Bool.or_eq_false_iff] at h
      cases hblk : t.isBlank with
      | true =>
        have hcond : ((Option.isNone (none : Option (Nat × Tile)) && t.isBlank)
            || (t.letter == letter)) = true := by
          simp [hblk]
        simp only [Word.findSquareAux, hcond, if_true]
        exact ⟨i, t, wordAux_stable letter rest _ _ h.2, hblk⟩
      | false =>
        simp only [hasBlank, hblk, Bool.false_or] at hb
        have hcond : ((Option.isNone (none : Option (Nat × Tile)) && t.isBlank)
            || (t.letter == letter)) = false := by
          simp [hblk, h.1]
        simp only [Word.findSquareAux, hcond, if_false]
        exact ih _ h.2 hb

theorem wordAux_none (letter : String) :
    ∀ (slots : Slots) (i : Nat), hasLetter letter slots = false → hasBlank slots = false →
      Word.findSquareAux letter slots i none = none := by
  intro slots
  induction slots with
  | nil => intro i _ _; rfl
  | cons s rest ih =>
    intro i h hb
    cases s with
    | none =>
      simp only [hasLetter] at h
      simp only [hasBlank] at hb
      simp only [Word.findSquareAux]
      exact ih _ h hb
    | some t =>
      simp only [hasLetter, Bool.or_eq_false_iff] at h
      simp only [hasBlank, Bool.or_eq_false_iff] at hb
      have hcond : ((Option.isNone (none : Option (Nat × Tile)) && t.isBlank)
          || (t.letter == letter)) = false := by
        simp [hb.1, h.1]
      simp only [Word.findSquareAux, hcond, if_false]
      exact ih _ h.2 hb.2

theorem potAux_const (letter : String) :
    ∀ (slots : Slots) (i : Nat) (acc : Option (Nat × Tile)), hasLetter letter slots = false →
      Pot.findSquareAux letter slots i acc = acc := by
  intro slots
  induction slots with
  | nil => intro i acc _; rfl
  | cons s rest ih =>
    intro i acc h
    cases s with
    | none =>
      simp only [hasLetter] at h
      simp only [Pot.findSquareAux]
      exact ih _ _ h
    | some t =>
      simp only [hasLetter, Bool.or_eq_false_iff] at h
      simp only [Pot.findSquareAux, h.1, if_false]
      exact ih _ _ h.2

theorem potAux_exact (letter : String) :
    ∀ (slots : Slots) (i : Nat) (acc : Option (Nat × Tile)), hasLetter letter slots = true →
      ∃ j t, Pot.findSquareAux letter slots i acc = some (j, t) ∧ t.letter = letter := by
  intro slots
  induction slots with
  | nil => intro i acc h; simp [hasLetter] at h
  | cons s rest ih =>
    intro i acc h
    cases s with
    | none =>
      simp only [hasLetter] at h
      simp only [Pot.findSquareAux]
      exact ih _ _ h
    | some t =>
      by_cases hrest : hasLetter letter rest = true
      · simp only [Pot.findSquareAux]
        exact ih _ _ hrest
      · have hrf : hasLetter letter rest = false := Bool.eq_false_iff.mpr hrest
        have hb : (t.letter == letter) = true := by
          simp only [hasLetter, hrf, Bool.or_false] at h
          exact h
        simp only [Pot.findSquareAux, hb, if_true]
        exact ⟨i, t, potAux_const letter rest _ _ hrf, eq_of_beq hb⟩

/-- C9: a Rack Container (class Word) removes and returns a tile with
the requested letter when one is held; when no exact letter is held but
a blank is, the blank is removed and re-lettered to the request; it
fails with a not-found error when neither exists. An Exchange Container
(class Pot) matches only the exact letter and never wildcard-matches a
blank. -/
theorem c9_removeTile_wildcard :
    (∀ (letter : String) (slots : Slots), hasLetter letter slots = true →
       ∃ t rest, Word.removeTile letter slots = .ok (t, rest) ∧ t.letter = letter) ∧
    (∀ (letter : String) (slots : Slots),
       hasLetter letter slots = false → hasBlank slots = true →
       ∃ t rest, Word.removeTile letter slots = .ok (t, rest) ∧
         t.isBlank = true ∧ t.letter = letter) ∧
    (∀ (letter : String) (slots : Slots),
       hasLetter letter slots = false → hasBlank slots = false →
       Word.removeTile letter slots = .error (.notFound letter)) ∧
    (∀ (letter : String) (slots : Slots), hasLetter letter slots = true →
       ∃ t rest, Pot.removeTile letter slots = .ok (t, rest) ∧ t.letter = letter) ∧
    (∀ (letter : String) (slots : Slots), hasLetter letter slots = false →
       Pot.removeTile letter slots = .error (.notFound letter)) := by
  refine ⟨?_, ?_, ?_, ?_, ?_⟩
  · intro letter slots h
    obtain ⟨j, t, hfind, hlet⟩ := wordAux_exact letter slots 0 none h
    refine ⟨(if t.isBlank then { t with letter := letter } else t), slots.set j none, ?_, ?_⟩
    · simp only [Word.removeTile, Word.findSquare, hfind]
    · cases hbl : t.isBlank <;> simp [hbl, hlet]
  · intro letter slots h hb
    obtain ⟨j, t, hfind, hblank⟩ := wordAux_blank letter slots 0 h hb
    refine ⟨{ t with letter := letter }, slots.set j none, ?_, hblank, rfl⟩
    simp only [Word.removeTile, Word.findSquare, hfind, hblank, if_true]
  · intro letter slots h hb
    simp only [Word.removeTile, Word.findSquare, wordAux_none letter slots 0 h hb]
  · intro letter slots h
    obtain ⟨j, t, hfind, hlet⟩ := potAux_exact letter slots 0 none h
    exact ⟨t, slots.set j none, by simp only [Pot.removeTile, Pot.findSquare, hfind], hlet⟩
  · intro letter slots h
    simp only [Pot.removeTile, Pot.findSquare, potAux_const letter slots 0 none h]

/-- Witness for c9_removeTile_wildcard: a rack holding one blank serves
a request for the letter Q by re-lettering the blank. -/
theorem c9_removeTile_wildcard_witness :
    ∃ t rest,
      Word.removeTile "Q" [some { letter := " ", score := 0, isBlank := true }] = .ok (t, rest) ∧
      t.isBlank = true ∧ t.letter = "Q" :=
  c9_removeTile_wildcard.2.1 "Q" [some { letter := " ", score := 0, isBlank := true }]
    (by decide) (by decide)

/-- C1: with a dictionary configured, a non-robot game and word-check
policy REJECT, a play containing a word missing from the dictionary
leaves the whole game state (board, racks, scores, ledger) unchanged
and emits exactly one REJECT notification, targeted at the acting
player and carrying the offending words. -/
theorem c1_play_reject_no_mutation (g : GameState) (pkey : String) (move : Move)
    (dict : List String) (w : String)
    (hdict : g.dictionary = some dict)
    (hrobot : g.isRobot = false)
    (hcheck : g.wordCheck = WordCheck.REJECT)
    (hw : w ∈ move.words)
    (hbad : dict.contains w = false) :
    play g pkey move =
      { game := g,
        notifs := [{ target := some pkey, ntype := NotifyType.REJECT, playerKey := some pkey,
                     words := move.words.filter (fun x => !(dict.contains x)) }],
        err := none } := by
  have hmem : w ∈ move.words.filter (fun x => !(dict.contains x)) :=
    List.mem_filter.mpr ⟨hw, by rw [hbad]; rfl⟩
  have hlen : 0 < (move.words.filter (fun x => !(dict.contains x))).length :=
    List.length_pos.mpr (List.ne_nil_of_mem hmem)
  simp only [play, hdict, hrobot, hcheck, and_self, if_true, hlen, if_pos]

/-- Witness for c1_play_reject_no_mutation on a concrete game. -/
theorem c1_play_reject_no_mutation_witness :
    play cGameR "p1" cMoveR =
      { game := cGameR,
        notifs := [{ target := some "p1", ntype := NotifyType.REJECT, playerKey := some "p1",
                     words := cMoveR.words.filter
                       (fun x => !((["CAT"] : List String).contains x)) }],
        err := none } :=
  c1_play_reject_no_mutation cGameR "p1" cMoveR ["CAT"] "ZZQX" rfl rfl rfl
    (by decide) (by decide)

/-- C4: on a move that passes word validation, play does move the tiles
and add the score, but then the source reads the unbound identifiers
prepasses (and nextPlayer), so the promise rejects with a
ReferenceError: no PLAYED record is appended, no replacement tiles are
drawn, and the turn is not advanced, contrary to the claim. -/
theorem c4_play_crashes_before_ledger :
    (play cGame4 "p1" cMove4).err = some (Err.referenceError "prepasses") ∧
    (play cGame4 "p1" cMove4).game.turns = [] ∧
    (play cGame4 "p1" cMove4).game.board = [((7, 7), tileA)] ∧
    findP (play cGame4 "p1" cMove4).game.players "p1" =
      some { cPlayer1 with rack := [none, none], score := 7 } := by
  decide

/-- C2: the play-then-takeBack round trip cannot restore the pre-play
state on this code: play rejects with a ReferenceError after mutating
the rack, board and score, so no PLAYED record exists; takeBack then
fails its own precondition and the state stays corrupted. -/
theorem c2_takeback_roundtrip_broken :
    (play cGame4 "p1" cMove4).err.isSome = true ∧
    (takeBack (play cGame4 "p1" cMove4).game "p1" TurnType.TOOK_BACK).err =
      some (Err.assertFail "No previous move to take back") ∧
    (takeBack (play cGame4 "p1" cMove4).game "p1" TurnType.TOOK_BACK).game ≠ cGame4 := by
  decide

theorem find?_map_keyed {α β : Type} (keyA : α → String) (keyB : β → String) (f : α → β)
    (hk : ∀ a, keyB (f a) = keyA a) :
    ∀ (l : List α) (k : String),
      (l.map f).find? (fun b => keyB b == k) = (l.find? (fun a => keyA a == k)).map f := by
  intro l
  induction l with
  | nil => intro k; rfl
  | cons a rest ih =>
    intro k
    cases hpk : keyA a == k with
    | true =>
      have hb : (keyB (f a) == k) = true := by rw [hk]; exact hpk
      simp [List.find?, hb, hpk]
    | false =>
      have hb : (keyB (f a) == k) = false := by rw [hk]; exact hpk
      simp only [List.map_cons, List.find?, hb, hpk]
      exact ih k

theorem findP_updP (l : List Player) (k k' : String) (f : Player → Player)
    (hf : ∀ p, (f p).key = p.key) :
    findP (updP k f l) k' =
      (findP l k').map (fun p => if p.key == k then f p else p) := by
  have hkeep : ∀ p : Player, (if p.key == k then f p else p).key = p.key := by
    intro p
    cases hpk : p.key == k
    · simp [hpk]
    · simp [hpk, hf p]
  exact find?_map_keyed (fun p : Player => p.key) (fun p : Player => p.key) _ hkeep l k'

theorem findP_updP_eq (l : List Player) (k : String) (f : Player → Player)
    (hf : ∀ p, (f p).key = p.key) :
    findP (updP k f l) k = (findP l k).map f := by
  rw [findP_updP l k k f hf]
  cases hfind : findP l k with
  | none => rfl
  | some p =>
    have hfind' : List.find? (fun q => q.key == k) l = some p := hfind
    have hp0 := List.find?_some hfind'
    have hp : (p.key == k) = true := hp0
    simp only [Option.map_some']
    exact congrArg some (if_pos hp)

theorem findP_updP_ne (l : List Player) (k k' : String) (f : Player → Player)
    (hf : ∀ p, (f p).key = p.key) (hne : k' ≠ k) :
    findP (updP k f l) k' = findP l k' := by
  rw [findP_updP l k k' f hf]
  cases hfind : findP l k' with
  | none => rfl
  | some p =>
    have hfind' : List.find? (fun q => q.key == k') l = some p := hfind
    have hp0 := List.find?_some hfind'
    have hp : (p.key == k') = true := hp0
    have hpk : p.key = k' := eq_of_beq hp
    have hno : (p.key == k) = false := by
      rw [hpk]
      exact beq_eq_false_iff_ne.mpr hne
    simp only [Option.map_some']
    exact congrArg some (if_neg (by simp [hno]))

theorem findP_self (l : List Player) (p : Player)
    (hnd : (l.map (fun q => q.key)).Nodup) (hmem : p ∈ l) :
    findP l p.key = some p := by
  induction l with
  | nil => cases hmem
  | cons q rest ih =>
    simp only [List.map_cons, List.nodup_cons] at hnd
    rcases List.mem_cons.mp hmem with rfl | hmem'
    · simp [findP, List.find?]
    · have hqk : (q.key == p.key) = false := by
        apply beq_eq_false_iff_ne.mpr
        intro hqp
        exact hnd.1 (hqp ▸ List.mem_map_of_mem (fun r => r.key) hmem')
      have ihres := ih hnd.2 hmem'
      simp only [findP, List.find?, hqk] at ihres ⊢
      exact ihres

theorem cgoLoop_preserves (tt : TimerType) (tp : Int) :
    ∀ (ps : List Player) (g : GameState) (pw : Option String) (pot : Int)
      (ds : List EndScore),
      (cgoLoop tt tp ps g pw pot ds).game.state = g.state ∧
      (cgoLoop tt tp ps g pw pot ds).game.turns = g.turns ∧
      (cgoLoop tt tp ps g pw pot ds).game.whosTurnKey = g.whosTurnKey := by
  intro ps
  induction ps with
  | nil => intro g pw pot ds; exact ⟨rfl, rfl, rfl⟩
  | cons p rest ih =>
    intro g pw pot ds
    cases he : rackIsEmpty p.rack with
    | true =>
      cases pw with
      | some k => simp [cgoLoop, he]
      | none =>
        simp only [cgoLoop, he, if_true]
        exact ih _ _ _ _
    | false =>
      simp only [cgoLoop, he, Bool.false_eq_true, if_false]
      exact ih _ _ _ _

theorem confirmGameOver_state (g : GameState) (pk : String) (es : Option GState)
    (hst : g.state = GState.PLAYING) :
    (confirmGameOver g pk es).game.state = es.getD GState.GAME_OVER := by
  simp only [confirmGameOver, hst, ne_eq, not_true_eq_false, if_false]
  split
  · exact (cgoLoop_preserves _ _ _ _ _ _ _).1
  · split
    · exact (cgoLoop_preserves _ _ _ _ _ _ _).1
    · exact (cgoLoop_preserves _ _ _ _ _ _ _).1

theorem confirmGameOver_turns (g : GameState) (pk : String) (es : Option GState) :
    (confirmGameOver g pk es).game.turns = g.turns ∨
    ∃ t : Turn, (confirmGameOver g pk es).game.turns = g.turns ++ [t] ∧
      t.type = TurnType.GAME_ENDED := by
  by_cases hst : g.state = GState.PLAYING
  · simp only [confirmGameOver, hst, ne_eq, not_true_eq_false, if_false]
    generalize hls :
      cgoLoop g.timerType g.timePenalty g.players
        { g with state := es.getD GState.GAME_OVER } none 0 [] = ls
    have hpres : ls.game.turns = g.turns := by
      rw [← hls]
      exact (cgoLoop_preserves _ _ _ _ _ _ _).2.1
    obtain ⟨lsg, lspw, lspot, lsds, lserr⟩ := ls
    cases lserr with
    | some e => exact Or.inl hpres
    | none =>
      cases lspw with
      | some k =>
        right
        refine ⟨{ type := TurnType.GAME_ENDED, playerKey := pk,
                  endScores :=
                    lsds.map (fun d => if d.key == k then { d with tiles := lspot } else d),
                  endState := es }, ?_, rfl⟩
        show (finishTurn _ _ _).turns = _
        simp only [finishTurn, updatePlayer]
        rw [hpres]
      | none =>
        right
        refine ⟨{ type := TurnType.GAME_ENDED, playerKey := pk,
                  endScores := lsds, endState := es }, ?_, rfl⟩
        show (finishTurn _ _ _).turns = _
        simp only [finishTurn]
        rw [hpres]
  · simp [confirmGameOver, hst]

theorem badWords_dict (ws : List String) :
    ∀ l : List String,
      badWords l (DictVal.dict ws) = .ok (l.filter (fun w => !(ws.contains w))) := by
  intro l
  induction l with
  | nil => rfl
  | cons w rest ih =>
    simp only [badWords, hasWordD, ih, List.filter_cons]
    cases hc : ws.contains w <;> simp [hc]

/-- C5 (amended): with the preconditions met, a challenge against a
play with some word failing lookup in an available dictionary has
exactly the effect of takeBack(challenger, CHALLENGE_WON); when the
dictionary collaborator is unavailable, the catch takes the play back,
so the game state is mutated exactly as by that takeBack, but the
take-back's resolved game then reaches the chained dictionary-test
callback in place of the dictionary, and with at least one word in the
challenged play the returned promise rejects with a TypeError instead
of resolving. -/
theorem c5_challenge_success_effects :
    (∀ (g : GameState) (chKey chdKey : String) (prev : Turn) (dict : List String)
       (w : String),
       chKey ≠ chdKey → lastTurn g = some prev → prev.type = TurnType.PLAYED →
       prev.playerKey = chdKey → g.dictionary = some dict → w ∈ prev.words →
       dict.contains w = false →
       challenge g chKey chdKey = takeBack g chKey TurnType.CHALLENGE_WON) ∧
    (∀ (g : GameState) (chKey chdKey : String) (prev : Turn) (w : String)
       (rest : List String),
       chKey ≠ chdKey → lastTurn g = some prev → prev.type = TurnType.PLAYED →
       prev.playerKey = chdKey → g.dictionary = none → prev.words = w :: rest →
       (takeBack g chKey TurnType.CHALLENGE_WON).err = none →
       challenge g chKey chdKey =
         { game := (takeBack g chKey TurnType.CHALLENGE_WON).game,
           notifs := (takeBack g chKey TurnType.CHALLENGE_WON).notifs,
           err := some (.typeError "dict.hasWord is not a function") }) := by
  constructor
  · intro g chKey chdKey prev dict w hne hlast htype hkey hdict hw hbad
    have hwnot : w ∉ dict := by simpa using hbad
    simp [challenge, hne, hlast, htype, hkey, hdict, challengeThen, badWords_dict]
    intro hall
    exact absurd (hall w hw) hwnot
  · intro g chKey chdKey prev w rest hne hlast htype hkey hnone hwords htb
    simp only [challenge, hne, hlast, htype, hkey, hnone, ne_eq, not_true_eq_false,
      if_false, ite_false]
    rw [htb]
    simp only [challengeThen, hwords, badWords, hasWordD]
    simp

/-- Counterexample for C5 as stated: with the dictionary collaborator
unavailable, the entire effect of challenge is not takeBack's effect —
the state is taken back but the operation then rejects with a
TypeError, while takeBack resolves. -/
theorem c5_entire_effect_refuted :
    challenge cGame5 "p1" "p2" ≠ takeBack cGame5 "p1" TurnType.CHALLENGE_WON := by
  decide

/-- Witness for c5_challenge_success_effects: a configured dictionary
missing the played word makes the challenge equal takeBack; with no
dictionary the state is taken back and the promise rejects with a
TypeError. -/
theorem c5_challenge_success_effects_witness :
    challenge cGame5d "p1" "p2" = takeBack cGame5d "p1" TurnType.CHALLENGE_WON ∧
    challenge cGame5 "p1" "p2" =
      { game := (takeBack cGame5 "p1" TurnType.CHALLENGE_WON).game,
        notifs := (takeBack cGame5 "p1" TurnType.CHALLENGE_WON).notifs,
        err := some (.typeError "dict.hasWord is not a function") } :=
  ⟨c5_challenge_success_effects.1 cGame5d "p1" "p2"
    { type := TurnType.PLAYED, playerKey := "p2", score := 4, words := ["ZZQX"] }
    ["CAT"] "ZZQX" (by decide) (by decide) rfl rfl rfl (by decide) (by decide),
   c5_challenge_success_effects.2 cGame5 "p1" "p2"
    { type := TurnType.PLAYED, playerKey := "p2", score := 4, words := ["ZZQX"] }
    "ZZQX" [] (by decide) (by decide) rfl rfl rfl rfl (by decide)⟩

/-- C6: a failed challenge outside the MISS-and-current-challenger case
appends a CHALLENGE_LOST record and leaves the turn pointer unchanged;
PER_TURN deducts the configured point value from the challenger,
PER_WORD deducts the value times the number of words of the challenged
play, and MISS with a non-current challenger only tags the challenger
to miss their next turn, with no score change. -/
theorem c6_failed_challenge_penalty (g : GameState) (chKey chdKey : String)
    (challenger : Player) (prev : Turn) (dict : List String) (curr np challenged : Player)
    (hne : chKey ≠ chdKey)
    (hlast : lastTurn g = some prev)
    (htype : prev.type = TurnType.PLAYED)
    (hkey : prev.playerKey = chdKey)
    (hdict : g.dictionary = some dict)
    (hgood : ∀ w ∈ prev.words, dict.contains w = true)
    (hcurr : getPlayer g = some curr)
    (hnp : nextPlayer g = some np)
    (hchd : findP g.players chdKey = some challenged)
    (hch : findP g.players chKey = some challenger)
    (hmiss : g.challengePenalty = Penalty.MISS → chKey ≠ curr.key) :
    (challenge g chKey chdKey).err = none ∧
    (challenge g chKey chdKey).game.whosTurnKey = g.whosTurnKey ∧
    (g.challengePenalty = Penalty.PER_TURN →
       findP (challenge g chKey chdKey).game.players chKey =
         some { challenger with score := challenger.score - g.penaltyPoints } ∧
       (challenge g chKey chdKey).game.turns =
         g.turns ++ [{ type := TurnType.CHALLENGE_LOST, playerKey := chdKey,
                       score := -g.penaltyPoints, challengerKey := some chKey,
                       nextToGoKey := some curr.key }]) ∧
    (g.challengePenalty = Penalty.PER_WORD →
       findP (challenge g chKey chdKey).game.players chKey =
         some { challenger with
                score := challenger.score - g.penaltyPoints * (prev.words.length : Int) } ∧
       (challenge g chKey chdKey).game.turns =
         g.turns ++ [{ type := TurnType.CHALLENGE_LOST, playerKey := chdKey,
                       score := -g.penaltyPoints * (prev.words.length : Int),
                       challengerKey := some chKey, nextToGoKey := some curr.key }]) ∧
    (g.challengePenalty = Penalty.MISS →
       findP (challenge g chKey chdKey).game.players chKey =
         some { challenger with missNextTurn := true } ∧
       (challenge g chKey chdKey).game.turns =
         g.turns ++ [{ type := TurnType.CHALLENGE_LOST, playerKey := chdKey, score := 0,
                       challengerKey := some chKey, nextToGoKey := some curr.key }]) := by
  have hbadnil : prev.words.filter (fun w => !(dict.contains w)) = [] := by
    refine List.filter_eq_nil_iff.mpr ?_
    intro a ha
    show ¬((!(dict.contains a)) = true)
    rw [hgood a ha]
    simp
  refine ⟨?_, ?_, ?_, ?_, ?_⟩
  · cases hpen : g.challengePenalty with
    | MISS =>
      have hnc : ¬(chKey = curr.key) := hmiss hpen
      simp only [challenge, challengeThen, badWords_dict, hne, hlast, htype, hkey, hdict, hbadnil, hcurr, hnp, hchd, hpen]
      simp [hnc]
    | NONE =>
      simp only [challenge, challengeThen, badWords_dict, hne, hlast, htype, hkey, hdict, hbadnil, hcurr, hnp, hchd, hpen]
      simp
    | PER_TURN =>
      simp only [challenge, challengeThen, badWords_dict, hne, hlast, htype, hkey, hdict, hbadnil, hcurr, hnp, hchd, hpen]
      simp
    | PER_WORD =>
      simp only [challenge, challengeThen, badWords_dict, hne, hlast, htype, hkey, hdict, hbadnil, hcurr, hnp, hchd, hpen]
      simp
  · cases hpen : g.challengePenalty with
    | MISS =>
      have hnc : ¬(chKey = curr.key) := hmiss hpen
      simp only [challenge, challengeThen, badWords_dict, hne, hlast, htype, hkey, hdict, hbadnil, hcurr, hnp, hchd, hpen]
      simp [hnc, finishTurn, updatePlayer]
    | NONE =>
      simp only [challenge, challengeThen, badWords_dict, hne, hlast, htype, hkey, hdict, hbadnil, hcurr, hnp, hchd, hpen]
      simp [finishTurn, updatePlayer]
    | PER_TURN =>
      simp only [challenge, challengeThen, badWords_dict, hne, hlast, htype, hkey, hdict, hbadnil, hcurr, hnp, hchd, hpen]
      simp [finishTurn, updatePlayer]
    | PER_WORD =>
      simp only [challenge, challengeThen, badWords_dict, hne, hlast, htype, hkey, hdict, hbadnil, hcurr, hnp, hchd, hpen]
      simp [finishTurn, updatePlayer]
  · intro hpen
    simp only [challenge, challengeThen, badWords_dict, hne, hlast, htype, hkey, hdict, hbadnil, hcurr, hnp, hchd, hpen]
    constructor
    · simp [finishTurn, updatePlayer, findP_updP_eq, hch, sub_eq_add_neg]
    · simp [finishTurn, updatePlayer]
  · intro hpen
    simp only [challenge, challengeThen, badWords_dict, hne, hlast, htype, hkey, hdict, hbadnil, hcurr, hnp, hchd, hpen]
    constructor
    · simp [finishTurn, updatePlayer, findP_updP_eq, hch, sub_eq_add_neg]
    · simp [finishTurn, updatePlayer]
  · intro hpen
    have hnc : ¬(chKey = curr.key) := hmiss hpen
    simp only [challenge, challengeThen, badWords_dict, hne, hlast, htype, hkey, hdict, hbadnil, hcurr, hnp, hchd, hpen]
    constructor
    · simp [hnc, finishTurn, updatePlayer, findP_updP_eq, hch]
    · simp [hnc, finishTurn, updatePlayer]

/-- Witness for c6_failed_challenge_penalty: the spec's example — a
failed challenge of a two-word play under PER_WORD at rate 5 costs the
challenger 10 points, appends a CHALLENGE_LOST record and leaves the
turn pointer unchanged. -/
theorem c6_failed_challenge_penalty_witness :
    (challenge cGame6 "p1" "p2").err = none ∧
    findP (challenge cGame6 "p1" "p2").game.players "p1" =
      some { cPlayer1 with
             score := cPlayer1.score -
               cGame6.penaltyPoints * ((["CAT", "AT"] : List String).length : Int) } ∧
    (challenge cGame6 "p1" "p2").game.whosTurnKey = cGame6.whosTurnKey :=
  ⟨(c6_failed_challenge_penalty cGame6 "p1" "p2" cPlayer1
      { type := TurnType.PLAYED, playerKey := "p2", score := 6, words := ["CAT", "AT"] }
      ["CAT", "AT"] cPlayer1 cPlayer2 cPlayer2
      (by decide) (by decide) rfl rfl rfl (by decide) (by decide) (by decide) (by decide)
      (by decide) (by decide)).1,
   ((c6_failed_challenge_penalty cGame6 "p1" "p2" cPlayer1
      { type := TurnType.PLAYED, playerKey := "p2", score := 6, words := ["CAT", "AT"] }
      ["CAT", "AT"] cPlayer1 cPlayer2 cPlayer2
      (by decide) (by decide) rfl rfl rfl (by decide) (by decide) (by decide) (by decide)
      (by decide) (by decide)).2.2.2.1 rfl).1,
   (c6_failed_challenge_penalty cGame6 "p1" "p2" cPlayer1
      { type := TurnType.PLAYED, playerKey := "p2", score := 6, words := ["CAT", "AT"] }
      ["CAT", "AT"] cPlayer1 cPlayer2 cPlayer2
      (by decide) (by decide) rfl rfl rfl (by decide) (by decide) (by decide) (by decide)
      (by decide) (by decide)).2.1⟩

/-- C7: a failed challenge under MISS by the player due to move, where
the challenged play emptied the challenged player's rack and drew no
replacements, immediately runs the settlement algorithm with end state
FAILED_CHALLENGE and appends no CHALLENGE_LOST record. -/
theorem c7_failed_challenge_ends_game (g : GameState) (chKey chdKey : String) (prev : Turn)
    (dict : List String) (curr np challenged : Player)
    (hne : chKey ≠ chdKey)
    (hlast : lastTurn g = some prev)
    (htype : prev.type = TurnType.PLAYED)
    (hkey : prev.playerKey = chdKey)
    (hdict : g.dictionary = some dict)
    (hgood : ∀ w ∈ prev.words, dict.contains w = true)
    (hcurr : getPlayer g = some curr)
    (hnp : nextPlayer g = some np)
    (hchd : findP g.players chdKey = some challenged)
    (hck : chKey = curr.key)
    (hmiss : g.challengePenalty = Penalty.MISS)
    (hrep : (prev.replacements.getD []).isEmpty = true)
    (hempty : rackIsEmpty challenged.rack = true)
    (hst : g.state = GState.PLAYING) :
    challenge g chKey chdKey = confirmGameOver g curr.key (some GState.FAILED_CHALLENGE) ∧
    (challenge g chKey chdKey).game.state = GState.FAILED_CHALLENGE ∧
    (challenge g chKey chdKey).game.turns.filter (fun t => t.type == TurnType.CHALLENGE_LOST) =
      g.turns.filter (fun t => t.type == TurnType.CHALLENGE_LOST) := by
  subst hck
  have hbadnil : prev.words.filter (fun w => !(dict.contains w)) = [] := by
    refine List.filter_eq_nil_iff.mpr ?_
    intro a ha
    show ¬((!(dict.contains a)) = true)
    rw [hgood a ha]
    simp
  have heq : challenge g curr.key chdKey =
      confirmGameOver g curr.key (some GState.FAILED_CHALLENGE) := by
    simp only [challenge, challengeThen, badWords_dict, hne, hlast, htype, hkey, hdict, hbadnil, hcurr, hnp, hchd,
      hmiss, hrep, hempty]
    simp [hrep, hempty]
  refine ⟨heq, ?_, ?_⟩
  · rw [heq]
    have h := confirmGameOver_state g curr.key (some GState.FAILED_CHALLENGE) hst
    simpa using h
  · rw [heq]
    rcases confirmGameOver_turns g curr.key (some GState.FAILED_CHALLENGE) with h | ⟨t, h1, h2⟩
    · rw [h]
    · rw [h1, List.filter_append]
      have hft : (t.type == TurnType.CHALLENGE_LOST) = false := by
        rw [h2]
        rfl
      simp [hft]

/-- Witness for c7_failed_challenge_ends_game on a concrete game. -/
theorem c7_failed_challenge_ends_game_witness :
    challenge cGame7 "p1" "p2" = confirmGameOver cGame7 "p1" (some GState.FAILED_CHALLENGE) :=
  (c7_failed_challenge_ends_game cGame7 "p1" "p2"
    { type := TurnType.PLAYED, playerKey := "p2", score := 6, words := ["CAT"] }
    ["CAT"] cPlayer1 cPlayer2e cPlayer2e
    (by decide) (by decide) rfl rfl rfl (by decide) (by decide) (by decide) (by decide)
    rfl rfl (by decide) (by decide) rfl).1

/-- C10: dispatchCommand routes exactly CONFIRM_GAME_OVER, PAUSE,
UNPAUSE, PLAY, TAKE_BACK, UNDO and REDO to their handlers; no
identifier dispatches to challenge, anotherGame or allow; any other
identifier fails with a fatal assertion before reaching a handler. -/
theorem c10_dispatch_routing :
    dispatchCommand Command.CONFIRM_GAME_OVER = .ok Handler.confirmGameOver ∧
    dispatchCommand Command.PAUSE = .ok Handler.pause ∧
    dispatchCommand Command.UNPAUSE = .ok Handler.unpause ∧
    dispatchCommand Command.PLAY = .ok Handler.play ∧
    dispatchCommand Command.TAKE_BACK = .ok Handler.takeBack ∧
    dispatchCommand Command.UNDO = .ok Handler.undo ∧
    dispatchCommand Command.REDO = .ok Handler.redo ∧
    (∀ c : String, dispatchCommand c ≠ .ok Handler.challenge ∧
       dispatchCommand c ≠ .ok Handler.anotherGame ∧
       dispatchCommand c ≠ .ok Handler.allow) ∧
    (∀ c : String,
       c ∉ [Command.CONFIRM_GAME_OVER, Command.PAUSE, Command.UNPAUSE, Command.PLAY,
            Command.TAKE_BACK, Command.UNDO, Command.REDO] →
       dispatchCommand c = .error (.assertFail ("unrecognized command: " ++ c))) := by
  refine ⟨by rfl, by rfl, by rfl, by rfl, by rfl, by rfl, by rfl, ?_, ?_⟩
  · intro c
    unfold dispatchCommand
    split_ifs <;> exact ⟨by simp, by simp, by simp⟩
  · intro c hc
    simp only [List.mem_cons, List.not_mem_nil, or_false, not_or] at hc
    obtain ⟨h1, h2, h3, h4, h5, h6, h7⟩ := hc
    simp [dispatchCommand, h1, h2, h3, h4, h5, h6, h7]

/-- Witness for c10_dispatch_routing: an identifier outside the command
set is rejected with a fatal assertion. -/
theorem c10_dispatch_routing_witness :
    dispatchCommand "BOGUS" = .error (.assertFail ("unrecognized command: " ++ "BOGUS")) :=
  c10_dispatch_routing.2.2.2.2.2.2.2.2 "BOGUS" (by decide)

theorem emptyCnt_cons_false (p : Player) (rest : List Player)
    (h : rackIsEmpty p.rack = false) : emptyCnt (p :: rest) = emptyCnt rest := by
  simp [emptyCnt, List.filter_cons, h]

theorem emptyCnt_cons_true (p : Player) (rest : List Player)
    (h : rackIsEmpty p.rack = true) : emptyCnt (p :: rest) = emptyCnt rest + 1 := by
  simp [emptyCnt, List.filter_cons, h]

theorem emptyCnt_pos (l : List Player) (p : Player) (hmem : p ∈ l)
    (hp : rackIsEmpty p.rack = true) : 1 ≤ emptyCnt l := by
  have : p ∈ l.filter (fun q => rackIsEmpty q.rack) := List.mem_filter.mpr ⟨hmem, hp⟩
  have hne : l.filter (fun q => rackIsEmpty q.rack) ≠ [] := List.ne_nil_of_mem this
  exact List.length_pos.mpr hne

theorem cgoLoop_noEmpty (tt : TimerType) (tp : Int) :
    ∀ (ps : List Player) (g : GameState) (pw : Option String) (pot : Int)
      (ds : List EndScore), emptyCnt ps = 0 →
      cgoLoop tt tp ps g pw pot ds =
        ⟨settleG ps g, pw, potAcc ps pot, ds ++ ps.map (deltaOf tt tp), none⟩ := by
  intro ps
  induction ps with
  | nil => intro g pw pot ds _; simp [cgoLoop, settleG, potAcc]
  | cons p rest ih =>
    intro g pw pot ds h
    cases hpe : rackIsEmpty p.rack with
    | true => rw [emptyCnt_cons_true p rest hpe] at h; omega
    | false =>
      rw [emptyCnt_cons_false p rest hpe] at h
      simp only [cgoLoop, hpe, Bool.false_eq_true, if_false]
      rw [ih _ _ _ _ h]
      simp [settleG, settleStep, potAcc, deltaOf, hpe, List.append_assoc]

theorem cgoLoop_oneEmpty (tt : TimerType) (tp : Int) :
    ∀ (ps : List Player) (g : GameState) (pot : Int) (ds : List EndScore),
      emptyCnt ps ≤ 1 →
      cgoLoop tt tp ps g none pot ds =
        ⟨settleG ps g, (ps.find? (fun p => rackIsEmpty p.rack)).map (fun p => p.key),
         potAcc ps pot, ds ++ ps.map (deltaOf tt tp), none⟩ := by
  intro ps
  induction ps with
  | nil => intro g pot ds _; simp [cgoLoop, settleG, potAcc]
  | cons p rest ih =>
    intro g pot ds h
    cases hpe : rackIsEmpty p.rack with
    | true =>
      rw [emptyCnt_cons_true p rest hpe] at h
      have hrest : emptyCnt rest = 0 := by omega
      simp only [cgoLoop, hpe, if_true]
      rw [cgoLoop_noEmpty tt tp rest g (some p.key) pot _ hrest]
      simp [settleG, settleStep, potAcc, deltaOf, hpe, List.find?, List.append_assoc]
    | false =>
      rw [emptyCnt_cons_false p rest hpe] at h
      simp only [cgoLoop, hpe, Bool.false_eq_true, if_false]
      rw [ih _ _ _ h]
      simp [settleG, settleStep, potAcc, deltaOf, hpe, List.find?, List.append_assoc]

theorem cgoLoop_err2 (tt : TimerType) (tp : Int) :
    ∀ (ps : List Player) (g : GameState) (pw : Option String) (pot : Int)
      (ds : List EndScore),
      (2 ≤ emptyCnt ps ∨ (1 ≤ emptyCnt ps ∧ pw ≠ none)) →
      (cgoLoop tt tp ps g pw pot ds).err =
        some (.assertFail "Found more than one player with no tiles when finishing game") := by
  intro ps
  induction ps with
  | nil =>
    intro g pw pot ds h
    rcases h with h | ⟨h, _⟩ <;> simp [emptyCnt] at h
  | cons p rest ih =>
    intro g pw pot ds h
    cases hpe : rackIsEmpty p.rack with
    | true =>
      cases pw with
      | some k => simp [cgoLoop, hpe]
      | none =>
        rw [emptyCnt_cons_true p rest hpe] at h
        have h2 : 1 ≤ emptyCnt rest := by
          rcases h with h | ⟨_, hno⟩
          · omega
          · exact absurd rfl hno
        simp only [cgoLoop, hpe, if_true]
        exact ih _ _ _ _ (Or.inr ⟨h2, by simp⟩)
    | false =>
      rw [emptyCnt_cons_false p rest hpe] at h
      simp only [cgoLoop, hpe, Bool.false_eq_true, if_false]
      exact ih _ _ _ _ h

theorem settleG_find_notin :
    ∀ (ps : List Player) (g : GameState) (k : String),
      (∀ p ∈ ps, p.key ≠ k) →
      findP (settleG ps g).players k = findP g.players k := by
  intro ps
  induction ps with
  | nil => intro g k _; rfl
  | cons p rest ih =>
    intro g k hnot
    have hstep : findP (settleStep g p).players k = findP g.players k := by
      unfold settleStep
      cases hpe : rackIsEmpty p.rack with
      | true => simp [hpe]
      | false =>
        simp only [hpe, Bool.false_eq_true, if_false]
        exact findP_updP_ne g.players p.key k _ (fun q => rfl)
          (Ne.symm (hnot p (List.mem_cons_self p rest)))
    calc findP (settleG (p :: rest) g).players k
        = findP (settleG rest (settleStep g p)).players k := rfl
      _ = findP (settleStep g p).players k :=
          ih _ k (fun q hq => hnot q (List.mem_cons_of_mem p hq))
      _ = findP g.players k := hstep

theorem findP_settleG :
    ∀ (ps : List Player) (g : GameState) (k : String),
      (ps.map (fun p => p.key)).Nodup →
      findP (settleG ps g).players k =
        (match ps.find? (fun p => p.key == k) with
         | some p =>
           if rackIsEmpty p.rack then findP g.players k
           else (findP g.players k).map
             (fun q => { q with score := q.score - rackScoreOf p.rack })
         | none => findP g.players k) := by
  intro ps
  induction ps with
  | nil => intro g k _; rfl
  | cons p rest ih =>
    intro g k hnd
    simp only [List.map_cons, List.nodup_cons] at hnd
    cases hpk : p.key == k with
    | true =>
      have hk : p.key = k := eq_of_beq hpk
      have hnotin : ∀ q ∈ rest, q.key ≠ k := by
        intro q hq hqk
        exact hnd.1 (by
          rw [← hk] at hqk
          exact hqk ▸ List.mem_map_of_mem (fun r => r.key) hq)
      have hrw : findP (settleG (p :: rest) g).players k =
          findP (settleStep g p).players k := by
        calc findP (settleG (p :: rest) g).players k
            = findP (settleG rest (settleStep g p)).players k := rfl
          _ = findP (settleStep g p).players k := settleG_find_notin rest _ k hnotin
      rw [hrw]
      simp only [List.find?, hpk]
      unfold settleStep
      cases hpe : rackIsEmpty p.rack with
      | true => simp [hpe]
      | false =>
        simp only [hpe, Bool.false_eq_true, if_false, ite_false]
        rw [← hk]
        exact findP_updP_eq g.players p.key _ (fun q => rfl)
    | false =>
      have hne : k ≠ p.key := by
        intro hkk
        rw [hkk] at hpk
        simp at hpk
      have hstep : findP (settleStep g p).players k = findP g.players k := by
        unfold settleStep
        cases hpe : rackIsEmpty p.rack with
        | true => simp [hpe]
        | false =>
          simp only [hpe, Bool.false_eq_true, if_false]
          exact findP_updP_ne g.players p.key k _ (fun q => rfl) hne
      calc findP (settleG (p :: rest) g).players k
          = findP (settleG rest (settleStep g p)).players k := rfl
        _ = _ := by
            rw [ih (settleStep g p) k hnd.2]
            simp only [List.find?, hpk]
            cases hfind : rest.find? (fun q => q.key == k) with
            | none => simp [hstep]
            | some q =>
              cases hqe : rackIsEmpty q.rack with
              | true => simp [hqe, hstep]
              | false => simp [hqe, hstep]

theorem find_empty_unique :
    ∀ (l : List Player) (p : Player), emptyCnt l ≤ 1 → p ∈ l →
      rackIsEmpty p.rack = true →
      l.find? (fun q => rackIsEmpty q.rack) = some p := by
  intro l
  induction l with
  | nil => intro p _ hmem _; cases hmem
  | cons q rest ih =>
    intro p hle hmem hp
    cases hqe : rackIsEmpty q.rack with
    | true =>
      rcases List.mem_cons.mp hmem with rfl | hmem'
      · simp [List.find?, hqe]
      · exfalso
        rw [emptyCnt_cons_true q rest hqe] at hle
        have := emptyCnt_pos rest p hmem' hp
        omega
    | false =>
      have hne : p ≠ q := by
        intro hpq
        rw [hpq, hqe] at hp
        cases hp
      have hmem' : p ∈ rest := by
        rcases List.mem_cons.mp hmem with rfl | hmem'
        · exact absurd rfl hne
        · exact hmem'
      rw [emptyCnt_cons_false q rest hqe] at hle
      simp only [List.find?, hqe]
      exact ih p hle hmem' hp

/-- C3: settlement subtracts each non-empty rack's value from its
owner's score and accumulates it into the forfeited pot; at most one
rack may be empty — two empty racks trip the fatal assertion — and the
empty-rack player, if any, receives the entire pot. -/
theorem c3_confirmGameOver_settlement :
    (∀ (g : GameState) (pk : String) (es : Option GState),
       g.state = GState.PLAYING → keysNodup g → emptyCnt g.players ≤ 1 →
       (confirmGameOver g pk es).err = none ∧
       (∀ p ∈ g.players, rackIsEmpty p.rack = false →
          findP (confirmGameOver g pk es).game.players p.key =
            some { p with score := p.score - rackScoreOf p.rack }) ∧
       (∀ p ∈ g.players, rackIsEmpty p.rack = true →
          findP (confirmGameOver g pk es).game.players p.key =
            some { p with score := p.score + forfeitPot g })) ∧
    (∀ (g : GameState) (pk : String) (es : Option GState),
       g.state = GState.PLAYING → 2 ≤ emptyCnt g.players →
       (confirmGameOver g pk es).err =
         some (.assertFail "Found more than one player with no tiles when finishing game")) := by
  constructor
  · intro g pk es hst hnd hle
    have hloop := cgoLoop_oneEmpty g.timerType g.timePenalty g.players
      { g with state := es.getD GState.GAME_OVER } 0 [] hle
    simp only [confirmGameOver, hst, ne_eq, not_true_eq_false, if_false, hloop]
    cases hfind : g.players.find? (fun p => rackIsEmpty p.rack) with
    | none =>
      simp only [hfind, Option.map_none']
      refine ⟨trivial, ?_, ?_⟩
      · intro p hp hpe
        have hfs : g.players.find? (fun q => q.key == p.key) = some p :=
          findP_self g.players p hnd hp
        have hset := findP_settleG g.players
          { g with state := es.getD GState.GAME_OVER } p.key hnd
        rw [hfs] at hset
        simp only [hpe, Bool.false_eq_true, if_false, ite_false] at hset
        have hg0 : findP ({ g with state := es.getD GState.GAME_OVER } : GameState).players
            p.key = some p := findP_self g.players p hnd hp
        rw [hg0] at hset
        simp only [finishTurn]
        exact hset
      · intro p hp hpt
        have := List.find?_eq_none.mp hfind p hp
        exact absurd hpt this
    | some pe =>
      simp only [hfind, Option.map_some']
      have hpeE0 := List.find?_some hfind
      have hpeE : rackIsEmpty pe.rack = true := hpeE0
      have hpeM : pe ∈ g.players := List.mem_of_find?_eq_some hfind
      refine ⟨trivial, ?_, ?_⟩
      · intro p hp hpf
        have hkne : p.key ≠ pe.key := by
          intro hk
          have h1 : List.find? (fun q => q.key == p.key) g.players = some p :=
            findP_self g.players p hnd hp
          have h2 : List.find? (fun q => q.key == pe.key) g.players = some pe :=
            findP_self g.players pe hnd hpeM
          rw [hk] at h1
          rw [h1] at h2
          injection h2 with h3
          rw [h3, hpeE] at hpf
          cases hpf
        simp only [finishTurn, updatePlayer]
        have hne := findP_updP_ne
          (settleG g.players { g with state := es.getD GState.GAME_OVER }).players
          pe.key p.key
          (fun q => { q with score := q.score + potAcc g.players 0 }) (fun q => rfl) hkne
        rw [hne]
        have hfs : g.players.find? (fun q => q.key == p.key) = some p :=
          findP_self g.players p hnd hp
        have hset := findP_settleG g.players
          { g with state := es.getD GState.GAME_OVER } p.key hnd
        rw [hfs] at hset
        simp only [hpf, Bool.false_eq_true, if_false, ite_false] at hset
        have hg0 : findP ({ g with state := es.getD GState.GAME_OVER } : GameState).players
            p.key = some p := findP_self g.players p hnd hp
        rw [hg0] at hset
        exact hset
      · intro p hp hpt
        have huniq : g.players.find? (fun q => rackIsEmpty q.rack) = some p :=
          find_empty_unique g.players p hle hp hpt
        rw [hfind] at huniq
        injection huniq with hpe_eq
        subst hpe_eq
        simp only [finishTurn, updatePlayer]
        have heq := findP_updP_eq
          (settleG g.players { g with state := es.getD GState.GAME_OVER }).players
          pe.key
          (fun q => { q with score := q.score + potAcc g.players 0 }) (fun q => rfl)
        rw [heq]
        have hfs : g.players.find? (fun q => q.key == pe.key) = some pe :=
          findP_self g.players pe hnd hp
        have hset := findP_settleG g.players
          { g with state := es.getD GState.GAME_OVER } pe.key hnd
        rw [hfs] at hset
        simp only [hpt, if_true, ite_true] at hset
        have hg0 : findP ({ g with state := es.getD GState.GAME_OVER } : GameState).players
            pe.key = some pe := findP_self g.players pe hnd hp
        rw [hg0] at hset
        rw [hset]
        rfl
  · intro g pk es hst h2
    have herr := cgoLoop_err2 g.timerType g.timePenalty g.players
      { g with state := es.getD GState.GAME_OVER } none 0 [] (Or.inl h2)
    simp only [confirmGameOver, hst, ne_eq, not_true_eq_false, if_false]
    rw [herr]

/-- Witness for c3_confirmGameOver_settlement: one player holds a
one-point rack and forfeits it; the empty-rack player receives it. -/
theorem c3_confirmGameOver_settlement_witness :
    (confirmGameOver cGame3 "p1" none).err = none ∧
    findP (confirmGameOver cGame3 "p1" none).game.players "p1" =
      some { cPlayer1 with score := cPlayer1.score - rackScoreOf cPlayer1.rack } ∧
    findP (confirmGameOver cGame3 "p1" none).game.players "p2" =
      some { cPlayer2e with score := cPlayer2e.score + forfeitPot cGame3 } :=
  ⟨(c3_confirmGameOver_settlement.1 cGame3 "p1" none rfl (by decide) (by decide)).1,
   (c3_confirmGameOver_settlement.1 cGame3 "p1" none rfl (by decide) (by decide)).2.1
     cPlayer1 (by decide) (by decide),
   (c3_confirmGameOver_settlement.1 cGame3 "p1" none rfl (by decide) (by decide)).2.2
     cPlayer2e (by decide) (by decide)⟩

theorem settleG_turns : ∀ (ps : List Player) (g : GameState),
    (settleG ps g).turns = g.turns := by
  intro ps
  induction ps with
  | nil => intro g; rfl
  | cons p rest ih =>
    intro g
    have hstep : (settleStep g p).turns = g.turns := by
      unfold settleStep
      split_ifs <;> rfl
    calc (settleG (p :: rest) g).turns
        = (settleG rest (settleStep g p)).turns := rfl
      _ = (settleStep g p).turns := ih _
      _ = g.turns := hstep

theorem timeDelta_key (tt : TimerType) (tp : Int) (p : Player) (d : EndScore) :
    (timeDelta tt tp p d).key = d.key := by
  simp only [timeDelta]
  split_ifs <;> rfl

theorem deltaOf_key (tt : TimerType) (tp : Int) (p : Player) :
    (deltaOf tt tp p).key = p.key := by
  unfold deltaOf
  split_ifs <;> rw [timeDelta_key]

theorem deltaOf_time_neg (tt : TimerType) (tp : Int) (p : Player) (x : Int) :
    (deltaOf tt tp p).time = some x → x < 0 := by
  intro h
  simp only [deltaOf, timeDelta] at h
  split_ifs at h <;> simp_all

theorem deltaOf_time_game (tt : TimerType) (tp : Int) (p : Player)
    (htt : tt = TimerType.GAME) (hclk : p.clock < 0) :
    (deltaOf tt tp p).time =
      (if jsRound (p.clock * tp) 60 < 0 then some (jsRound (p.clock * tp) 60) else none) := by
  cases hre : rackIsEmpty p.rack <;>
    simp only [deltaOf, timeDelta, hre, htt, hclk, and_self, if_true, ite_true,
      Bool.false_eq_true, if_false, ite_false] <;>
    split_ifs <;> rfl

theorem findD_map_deltaOf (tt : TimerType) (tp : Int) (ps : List Player) (k : String) :
    findD (ps.map (deltaOf tt tp)) k =
      (ps.find? (fun p => p.key == k)).map (deltaOf tt tp) :=
  find?_map_keyed (fun p : Player => p.key) (fun d : EndScore => d.key) (deltaOf tt tp)
    (deltaOf_key tt tp) ps k

theorem findD_map_tiles (kk : String) (pot : Int) (l : List EndScore) (k : String) :
    findD (l.map (fun d => if d.key == kk then { d with tiles := pot } else d)) k =
      (findD l k).map (fun d => if d.key == kk then { d with tiles := pot } else d) := by
  have hkeep : ∀ d : EndScore,
      (if d.key == kk then { d with tiles := pot } else d).key = d.key := by
    intro d
    split_ifs <;> rfl
  exact find?_map_keyed (fun d : EndScore => d.key) (fun d : EndScore => d.key) _ hkeep l k

theorem tiles_overwrite_time (kk : String) (pot : Int) (d : EndScore) :
    (if d.key == kk then { d with tiles := pot } else d).time = d.time := by
  split_ifs <;> rfl

/-- C8: during settlement, a player under a per-game clock with
negative remaining time gets a recorded time delta equal to
Math.round(clock * timePenalty / 60) exactly when that value is
negative; no recorded time delta is ever a bonus. -/
theorem c8_time_penalty (g : GameState) (pk : String) (es : Option GState) (p : Player)
    (hst : g.state = GState.PLAYING) (hnd : keysNodup g) (hle : emptyCnt g.players ≤ 1)
    (hmem : p ∈ g.players) (htt : g.timerType = TimerType.GAME) (hclk : p.clock < 0) :
    (confirmGameOver g pk es).err = none ∧
    ∃ t : Turn, (confirmGameOver g pk es).game.turns = g.turns ++ [t] ∧
      t.type = TurnType.GAME_ENDED ∧
      (findD t.endScores p.key).map (fun d => d.time) =
        some (if jsRound (p.clock * g.timePenalty) 60 < 0
              then some (jsRound (p.clock * g.timePenalty) 60) else none) ∧
      (∀ d ∈ t.endScores, ∀ x : Int, d.time = some x → x < 0) := by
  have hloop := cgoLoop_oneEmpty g.timerType g.timePenalty g.players
    { g with state := es.getD GState.GAME_OVER } 0 [] hle
  simp only [confirmGameOver, hst, ne_eq, not_true_eq_false, if_false, hloop,
    List.nil_append]
  cases hfind : g.players.find? (fun q => rackIsEmpty q.rack) with
  | none =>
    simp only [hfind, Option.map_none']
    refine ⟨trivial,
      { type := TurnType.GAME_ENDED, playerKey := pk,
        endScores := g.players.map (deltaOf g.timerType g.timePenalty), endState := es },
      ?_, rfl, ?_, ?_⟩
    · simp only [finishTurn]
      rw [settleG_turns]
    · rw [findD_map_deltaOf]
      have hfs : g.players.find? (fun q => q.key == p.key) = some p :=
        findP_self g.players p hnd hmem
      rw [hfs]
      simp only [Option.map_some']
      rw [deltaOf_time_game g.timerType g.timePenalty p htt hclk]
    · intro d hd x hx
      obtain ⟨q, hq, rfl⟩ := List.mem_map.mp hd
      exact deltaOf_time_neg _ _ q x hx
  | some pe =>
    simp only [hfind, Option.map_some']
    refine ⟨trivial,
      { type := TurnType.GAME_ENDED, playerKey := pk,
        endScores :=
          (g.players.map (deltaOf g.timerType g.timePenalty)).map
            (fun d => if d.key == pe.key then { d with tiles := potAcc g.players 0 } else d),
        endState := es },
      ?_, rfl, ?_, ?_⟩
    · simp only [finishTurn, updatePlayer]
      rw [settleG_turns]
    · rw [findD_map_tiles, findD_map_deltaOf]
      have hfs : g.players.find? (fun q => q.key == p.key) = some p :=
        findP_self g.players p hnd hmem
      rw [hfs]
      simp only [Option.map_some']
      rw [tiles_overwrite_time]
      rw [deltaOf_time_game g.timerType g.timePenalty p htt hclk]
    · intro d hd x hx
      obtain ⟨d0, hd0, rfl⟩ := List.mem_map.mp hd
      obtain ⟨q, hq, rfl⟩ := List.mem_map.mp hd0
      rw [tiles_overwrite_time] at hx
      exact deltaOf_time_neg _ _ q x hx

/-- Witness for c8_time_penalty: with a per-game timer, penalty rate 60
per minute and a clock 120 seconds over, the recorded time delta is
-120. -/
theorem c8_time_penalty_witness :
    (confirmGameOver cGame8 "p1" none).err = none ∧
    ∃ t : Turn, (confirmGameOver cGame8 "p1" none).game.turns = cGame8.turns ++ [t] ∧
      t.type = TurnType.GAME_ENDED ∧
      (findD t.endScores "p1").map (fun d => d.time) =
        some (if jsRound (cPlayer1c.clock * cGame8.timePenalty) 60 < 0
              then some (jsRound (cPlayer1c.clock * cGame8.timePenalty) 60) else none) ∧
      (∀ d ∈ t.endScores, ∀ x : Int, d.time = some x → x < 0) :=
  c8_time_penalty cGame8 "p1" none cPlayer1c rfl (by decide) (by decide) (by decide)
    rfl (by decide)
